import Mathlib

/-!
Shallow embedding of the NotHotDog test tooling.

Embedded source files:
* `src/app/api/tools/generate-tests/route.ts` — `extractJSON`,
  `isValidEvaluation`, and the POST handler (filtering, stats, error paths);
* `src/app/api/tools/analyze-results/route.ts` (the unnamed source file) —
  the analyze-results POST handler;
* `src/services/agents/claude/qaAgent.ts` — `QaAgent.runTest`,
  `QaAgent.getHistory`.

External collaborators (the langchain model chain, `jsonrepair`/`JSON.parse`,
`ApiHandler`, `ConversationHandler`, `ResponseValidator`, `uuidv4`,
`Date.now`) are not part of the repository's sources here; they enter the
embedding as explicit function parameters, so every theorem quantifies over
their behavior unless it instantiates them with a concrete witness function.
-/

/- ## JSON values -/

/-- JSON values as produced by `JSON.parse`. Object fields are kept in source
order; `JSON.parse` resolves duplicate keys last-wins, which `Json.getField`
reproduces. Numbers are restricted to integers, which is all the concrete
inputs below need. -/
inductive Json where
  | obj (members : List (String × Json))
  | arr (items : List Json)
  | str (value : String)
  | num (value : Int)
  | bool (value : Bool)
  | null

/-- Property access `j[k]` on a `JSON.parse` result: only objects have
fields, with later duplicate keys shadowing earlier ones (last-wins as in
`JSON.parse`). Access on any other value (JS `undefined`, or the short-circuit
of optional chaining on `null`) is `none`. -/
def Json.getField : Json → String → Option Json
  | .obj fields, k => fields.reverse.lookup k
  | _, _ => none

/- ## A strict JSON parser

`extractJSON` in `route.ts` runs `JSON.parse(jsonrepair(text))`. Both are
third-party/runtime functions, so the embedding of `extractJSON` takes the
composite as a parameter `repairParse`. For concrete witnesses and
counterexamples we still need one real instance: `jsonParse` below is a strict
JSON parser. On text that is already valid JSON, `jsonrepair` is the identity,
so `jsonParse` agrees with the composite there; on anything it cannot strictly
parse it fails (`none`), a conservative under-approximation of the repair
behavior that is sound for the concrete inputs used below. -/

/-- The left-brace character, kept out of literals. -/
def lbrace : Char := Char.ofNat 123

/-- The right-brace character, kept out of literals. -/
def rbrace : Char := Char.ofNat 125

/-- The four whitespace characters `JSON.parse` skips between tokens. -/
def isJsonWS (c : Char) : Bool :=
  [' ', '\t', '\n', '\r'].contains c

def skipJsonWS (cs : List Char) : List Char := cs.dropWhile isJsonWS

/-- One escape character inside a JSON string literal (the subset the concrete
inputs use); an unsupported escape makes the whole parse fail. -/
def escMap : List (Char × Char) :=
  [('"', '"'), ('\\', '\\'), ('/', '/'), ('n', '\n'), ('t', '\t'), ('r', '\r')]

def escChar (c : Char) : Option Char := escMap.lookup c

/-- Body of a JSON string literal after the opening quote: the decoded
characters and the input after the closing quote. -/
def parseStringChars : List Char → Option (List Char × List Char)
  | [] => none
  | '"' :: rest => some ([], rest)
  | '\\' :: e :: rest =>
    match escChar e, parseStringChars rest with
    | some c, some (s, r) => some (c :: s, r)
    | _, _ => none
  | c :: rest =>
    match parseStringChars rest with
    | some (s, r) => some (c :: s, r)
    | none => none

def digitsToNat (ds : List Char) : Nat :=
  ds.foldl (fun n c => n * 10 + (c.toNat - 48)) 0

/-- Leading JSON integer token. A following `.` or exponent is left in the
remainder, which makes the enclosing parse fail — integers only. -/
def parseIntToken : List Char → Option (Int × List Char)
  | '-' :: rest =>
    let ds := rest.takeWhile Char.isDigit
    if ds.isEmpty then none
    else some (-(digitsToNat ds : Int), rest.dropWhile Char.isDigit)
  | cs =>
    let ds := cs.takeWhile Char.isDigit
    if ds.isEmpty then none
    else some ((digitsToNat ds : Int), cs.dropWhile Char.isDigit)

/-- The three keyword tokens of JSON, read off the head of the input. -/
def keywordLiteral (cs : List Char) : Option (Json × List Char) :=
  if cs.take 4 = "true".toList then some (Json.bool true, cs.drop 4)
  else if cs.take 5 = "false".toList then some (Json.bool false, cs.drop 5)
  else if cs.take 4 = "null".toList then some (Json.null, cs.drop 4)
  else none

mutual

/-- Parse one JSON value, fuel-bounded. -/
def parseValue : Nat → List Char → Option (Json × List Char)
  | 0, _ => none
  | fuel + 1, cs =>
    match skipJsonWS cs with
    | [] => none
    | c :: rest =>
      if c == '"' then
        match parseStringChars rest with
        | some (s, r) => some (.str (String.mk s), r)
        | none => none
      else if c == '[' then
        match skipJsonWS rest with
        | ']' :: r => some (.arr [], r)
        | r =>
          match parseElems fuel r with
          | some (vs, r2) => some (.arr vs, r2)
          | none => none
      else if c == lbrace then
        let r := skipJsonWS rest
        if r.head? == some rbrace then some (.obj [], r.tail)
        else
          match parseMembers fuel r with
          | some (fs, r2) => some (.obj fs, r2)
          | none => none
      else
        match keywordLiteral (c :: rest) with
        | some (v, r) => some (v, r)
        | none =>
          match parseIntToken (c :: rest) with
          | some (n, r) => some (.num n, r)
          | none => none

/-- Parse array elements after the opening `[` (nonempty case). -/
def parseElems : Nat → List Char → Option (List Json × List Char)
  | 0, _ => none
  | fuel + 1, cs =>
    match parseValue fuel cs with
    | none => none
    | some (v, r) =>
      match skipJsonWS r with
      | ',' :: r2 =>
        match parseElems fuel r2 with
        | some (vs, r3) => some (v :: vs, r3)
        | none => none
      | ']' :: r2 => some ([v], r2)
      | _ => none

/-- Parse object members after the opening brace (nonempty case). -/
def parseMembers : Nat → List Char → Option (List (String × Json) × List Char)
  | 0, _ => none
  | fuel + 1, cs =>
    match skipJsonWS cs with
    | '"' :: rest =>
      match parseStringChars rest with
      | none => none
      | some (k, r) =>
        match skipJsonWS r with
        | ':' :: r2 =>
          match parseValue fuel r2 with
          | none => none
          | some (v, r3) =>
            match skipJsonWS r3 with
            | ',' :: r4 =>
              match parseMembers fuel r4 with
              | some (fs, r5) => some ((String.mk k, v) :: fs, r5)
              | none => none
            | c :: r4 => if c == rbrace then some ([(String.mk k, v)], r4) else none
            | [] => none
        | _ => none
    | _ => none

end

/-- Strict model of `JSON.parse ∘ jsonrepair` on inputs that are already valid
JSON (where `jsonrepair` is the identity); `none` on anything else. -/
def jsonParse (s : String) : Option Json :=
  match parseValue (s.toList.length + 1) s.toList with
  | some (v, r) => if (skipJsonWS r).isEmpty then some v else none
  | none => none

/- ## String.prototype.trim -/

/-- `String.prototype.trim()`: strip whitespace from both ends. (JS strips the
WhiteSpace and LineTerminator productions; the inputs in play only use ASCII
whitespace, covered by `Char.isWhitespace`.) -/
def jsTrim (s : String) : String :=
  String.mk ((((s.toList.dropWhile Char.isWhitespace).reverse).dropWhile
    Char.isWhitespace).reverse)

/- ## generate-tests route (`route.ts`) -/

/-- The literal `{ evaluations: [] }` returned by `extractJSON` on every
failure path (route.ts lines 20 and 39). -/
def emptyEvaluations : Json := Json.obj [("evaluations", Json.arr [])]

/-- route.ts lines 14–25: slice the text from the first `[` if any, else from
the first brace; `none` when neither occurs. -/
def sliceStructure (text : String) : Option String :=
  match text.toList.findIdx? (· == '[') with
  | some i => some (String.mk (text.toList.drop i))
  | none =>
    match text.toList.findIdx? (· == lbrace) with
    | some i => some (String.mk (text.toList.drop i))
    | none => none

/-- `extractJSON` (route.ts 12–41), parameterized by `repairParse`, the
composite `JSON.parse ∘ jsonrepair`; `none` models a throw from either
(`jsonrepair` failure or parse failure), caught by the `try` at line 13. -/
def extractJSON (repairParse : String → Option Json) (text : String) : Json :=
  match sliceStructure text with
  | none => emptyEvaluations
  | some t =>
    match repairParse t with
    | none => emptyEvaluations
    | some parsed =>
      match parsed with
      | .arr xs => Json.obj [("evaluations", Json.arr xs)]
      | _ => parsed

/-- The guard of route.ts line 148: the value has an `evaluations` field that
is an array. (In JS, `!evaluations?.evaluations || !Array.isArray(...)`; a
falsy value is never an array, so both disjuncts collapse to this check.) -/
def hasEvaluationsArray (j : Json) : Bool :=
  match j.getField "evaluations" with
  | some (.arr _) => true
  | _ => false

/-- route.ts 148–150: replace anything without an `evaluations` array by the
empty envelope. -/
def normalizeEvaluations (j : Json) : Json :=
  if hasEvaluationsArray j then j else emptyEvaluations

/-- The `evaluations` array of an envelope (used after normalization). -/
def evaluationsOf (j : Json) : List Json :=
  match j.getField "evaluations" with
  | some (.arr xs) => xs
  | _ => []

/-- `isValidEvaluation` (route.ts 48–57): a truthy object whose `scenario` and
`expectedOutput` fields are strings with non-blank trimmed content.
Non-objects, arrays and `null` fail the truthiness / `typeof` / string guards
in JS; here their field access is `none`, giving the same verdict. -/
def isValidEvaluation (j : Json) : Bool :=
  match j.getField "scenario", j.getField "expectedOutput" with
  | some (.str s), some (.str e) =>
    decide (0 < (jsTrim s).length) && decide (0 < (jsTrim e).length)
  | _, _ => false

/-- route.ts 43–46. -/
structure Evaluation where
  scenario : String
  expectedOutput : String

/-- The string value of field `k`; the callers below use it only on entries
that passed `isValidEvaluation`, where the field is a string, so the default
branch is unreachable there. -/
def getStringField (j : Json) (k : String) : String :=
  match j.getField k with
  | some (.str s) => s
  | _ => ""

/-- route.ts 152–157: keep valid entries, trim both fields. -/
def validEvaluationsOf (candidates : List Json) : List Evaluation :=
  (candidates.filter isValidEvaluation).map fun e =>
    { scenario := jsTrim (getStringField e "scenario")
      expectedOutput := jsTrim (getStringField e "expectedOutput") }

/-- The `stats` record of route.ts 171–175. -/
structure GenStats where
  total : Nat
  valid : Nat
  filtered : Nat

/-- route.ts 171–175: `total` is the candidate count, `valid` the survivor
count, `filtered` their JS-number difference (non-negative since the survivors
are a sublist). -/
def statsOf (candidates : List Json) : GenStats :=
  { total := candidates.length
    valid := (validEvaluationsOf candidates).length
    filtered := candidates.length - (validEvaluationsOf candidates).length }

/-- A thrown JS `Error` value: its `name` and `message`. `new Error(msg)` has
name `"Error"`. -/
structure JSError where
  name : String
  message : String
deriving DecidableEq

/-- An HTTP response as produced by `NextResponse.json` — a status code and a
JSON body (the default status is 200). -/
structure HttpResponse where
  status : Nat
  body : Json

/-- Success body of the generate-tests POST (route.ts 165–176); `uuid i`
models the `crypto.randomUUID()` call for the i-th test case. -/
def generateTestsBody (uuid : Nat → String) (valids : List Evaluation) (total : Nat) : Json :=
  Json.obj
    [("testCases", Json.arr (valids.mapIdx fun i ev =>
        Json.obj [("id", Json.str (uuid i)), ("scenario", Json.str ev.scenario),
                  ("expectedOutput", Json.str ev.expectedOutput)])),
     ("stats", Json.obj [("total", Json.num (total : Int)),
                         ("valid", Json.num (valids.length : Int)),
                         ("filtered", Json.num ((total - valids.length : Nat) : Int))])]

/-- The generate-tests POST handler from line 145 on (route.ts 120–187).
`responseE` is the outcome of the steps before line 145 — request-body
validation, the API-key check and the chain invocation — each of which can
only throw (modelled `.error`) or produce the model's raw text. The catch at
line 177 maps every thrown error to a 500 whose `details` is the error's
message. -/
def generateTestsPOST (repairParse : String → Option Json) (uuid : Nat → String)
    (responseE : Except JSError String) : HttpResponse :=
  let tryBlock : Except JSError HttpResponse :=
    match responseE with
    | .error e => .error e
    | .ok response =>
      let evaluations := normalizeEvaluations (extractJSON repairParse response)
      let valids := validEvaluationsOf (evaluationsOf evaluations)
      if valids.length = 0 then
        .error { name := "Error", message := "No valid evaluations generated" }
      else
        .ok { status := 200
              body := generateTestsBody uuid valids (evaluationsOf evaluations).length }
  match tryBlock with
  | .ok r => r
  | .error e =>
    { status := 500
      body := Json.obj [("error", Json.str "Failed to generate evaluations"),
                        ("details", Json.str e.message)] }

/- ## analyze-results route (the unnamed source file) -/

/-- A caller-supplied LLM configuration derived from request headers
(`getLLMConfigForActiveModel`). -/
structure LLMConfig where
  model : String
  apiKey : String

/-- The analyze-results POST handler (unnamed route file, lines 36–72).
`bodyJ` is the request body (`none` when `req.json()` throws on a malformed
body); `validate` models `validateAnalyzeResultsRequest` (outside src/: it
yields the validated `results` or throws); `getConfig` is the value of
`getLLMConfigForActiveModel(req.headers)` (outside src/: `none` exactly when
the header-derived model configuration is missing or invalid, per the spec);
`invokeAnalysis` models the analysis chain of lines 54–62. The catch at line
65 maps every thrown error to a 500. -/
def analyzeResultsPOST (bodyJ : Option Json) (validate : Json → Except JSError Json)
    (getConfig : Option LLMConfig)
    (invokeAnalysis : LLMConfig → Json → Except JSError Json) : HttpResponse :=
  let tryBlock : Except JSError HttpResponse :=
    match bodyJ with
    | none => .error { name := "SyntaxError", message := "Unexpected token in JSON" }
    | some b =>
      match validate b with
      | .error e => .error e
      | .ok results =>
        match getConfig with
        | none =>
          .ok { status := 400
                body := Json.obj [("error", Json.str "Missing or invalid LLM configuration")] }
        | some cfg =>
          match invokeAnalysis cfg results with
          | .error e => .error e
          | .ok analysis => .ok { status := 200, body := analysis }
  match tryBlock with
  | .ok r => r
  | .error _ =>
    { status := 500, body := Json.obj [("error", Json.str "Failed to analyze results")] }

/- ## QaAgent (`qaAgent.ts`) -/

/-- `config.apiConfig` of `QaAgentConfig` (`./types`, used by qaAgent.ts).
The format and rule specifications are opaque to `runTest`; they are only
passed on to the collaborators, so they are modelled as opaque tokens. -/
structure ApiConfig where
  inputFormat : String
  outputFormat : String
  rules : String

/-- `QaAgentConfig` (qaAgent.ts constructor): per-agent, immutable. -/
structure QaAgentConfig where
  modelId : String
  apiConfig : ApiConfig
  endpointUrl : String
  headers : String

/-- `metrics` of a `TestMessage` (qaAgent.ts 117–120). -/
structure MsgMetrics where
  responseTime : Int
  validationScore : Int
deriving DecidableEq

/-- `TestMessage` (`@/types/runs`, as constructed in qaAgent.ts). -/
structure TestMessage where
  id : String
  chatId : String
  role : String
  content : String
  metrics : MsgMetrics
deriving DecidableEq

/-- `conversation` of a `TestResult` (qaAgent.ts 220–226). -/
structure ConversationRecord where
  humanMessage : String
  rawInput : String
  rawOutput : String
  chatResponse : String
  allMessages : List TestMessage
deriving DecidableEq

/-- `validation.metrics` of a `TestResult` (qaAgent.ts 232–234). -/
structure ValidationMetrics where
  responseTime : Int
deriving DecidableEq

/-- `validation` of a `TestResult` (qaAgent.ts 227–235). -/
structure ValidationRecord where
  passedTest : Bool
  formatValid : Bool
  conditionMet : Bool
  explanation : String
  metrics : ValidationMetrics
deriving DecidableEq

/-- `TestResult` (`./types`): the value `runTest` resolves with. -/
structure TestResult where
  conversation : ConversationRecord
  validation : ValidationRecord
deriving DecidableEq

/-- A message in the agent's `BufferMemory` (with `returnMessages: true`,
`saveContext` appends a role-tagged `HumanMessage`/`AIMessage` pair). -/
inductive ChatMessage where
  | human (content : String)
  | ai (content : String)
deriving DecidableEq

/-- The mutable state of one `QaAgent` instance: its conversation memory. -/
structure AgentState where
  memory : List ChatMessage
deriving DecidableEq

/-- The collaborators `runTest` calls, as one capability record.

* `invoke` — the langchain `chain.invoke({input})` of qaAgent.ts 74–78 (the
  fixed prompt template composed with the model and the string output
  parser); it may reject (`.error`).
* `formatInput` — `ApiHandler.formatInput(message, inputFormat)`.
* `callEndpoint` — `ApiHandler.callEndpoint(url, headers, body)`; `.error`
  models a rejected call (a timeout rejects with an error named
  `"AbortError"`).
* `extractTestMessage`, `extractConversationPlan`, `extractChatResponse` —
  `ConversationHandler`.
* `validateResponseFormat`, `validateCondition` — `ResponseValidator`.
* `uuid k` — the k-th `uuidv4()` call of the run; `now k` — the k-th
  `Date.now()` call.

`ApiHandler`, `ConversationHandler` and `ResponseValidator` are repository
modules that are not under src/; per the spec (§4.3–§4.5, §6) they are plain
functions of their arguments, which is how they appear here. -/
structure QaEnv where
  invoke : String → Except JSError String
  formatInput : String → String → String
  callEndpoint : String → String → String → Except JSError String
  extractTestMessage : String → String
  extractConversationPlan : String → Option (List String)
  extractChatResponse : String → String → String
  validateResponseFormat : String → String → Bool
  validateCondition : String → String → Bool
  uuid : Nat → String
  now : Nat → Int

/-- The planning input of qaAgent.ts 81–83. -/
def planPrompt (scenario expectedOutput : String) : String :=
  "Test this scenario: " ++ scenario ++ "\nExpected behavior: " ++ expectedOutput ++
    "\n\nPlan and start a natural conversation to test this scenario."

/-- The follow-up input of qaAgent.ts 138–140. -/
def followUpPrompt (chatResponse plannedTurn : String) : String :=
  "Previous API response: \"" ++ chatResponse ++ "\"\n\nGiven this response and your plan: \"" ++
    plannedTurn ++ "\"\n\nContinue the conversation naturally."

/-- One transcript line of the analysis input (qaAgent.ts 206). -/
def transcriptLine (m : TestMessage) : String :=
  (if m.role == "user" then "Human" else "Assistant") ++ ": " ++ m.content

/-- The final-analysis input of qaAgent.ts 199–212. -/
def analysisPrompt (scenario expectedOutput : String) (allMessages : List TestMessage)
    (formatValid conditionMet : Bool) : String :=
  "Analyze if this conversation met our test expectations:\n\nOriginal scenario: " ++
    scenario ++ "\nExpected behavior: " ++ expectedOutput ++ "\n\nConversation:\n" ++
    String.intercalate "\n\n" (allMessages.map transcriptLine) ++
    "\n\nConsider that the response format was " ++
    (if formatValid then "valid" else "invalid") ++ "\nand the condition was " ++
    (if conditionMet then "met" else "not met") ++
    ".\n\nDid the interaction meet our expectations? Explain why or why not."

/-- The mutable locals of `runTest` that the follow-up loop updates, plus the
counters for the `uuidv4()`/`Date.now()` call streams. -/
structure TurnState where
  chatResponse : String
  apiResponse : String
  allMessages : List TestMessage
  totalResponseTime : Int
  uuidIdx : Nat
  nowIdx : Nat

/-- The state after the initial turn (qaAgent.ts 90–134): two transcript
entries sharing the fresh `chatId` (`uuid 0`), with the elapsed time of the
initial call as both entries' `responseTime`. -/
def initialTurnState (env : QaEnv) (cfg : QaAgentConfig) (testMessage apiResponse : String) :
    TurnState :=
  let chatResponse := env.extractChatResponse apiResponse cfg.apiConfig.rules
  let totalResponseTime := env.now 1 - env.now 0
  let chatId := env.uuid 0
  { chatResponse := chatResponse
    apiResponse := apiResponse
    allMessages :=
      [{ id := env.uuid 1, chatId := chatId, role := "user", content := testMessage
         metrics := { responseTime := totalResponseTime, validationScore := 1 } },
       { id := env.uuid 2, chatId := chatId, role := "assistant", content := chatResponse
         metrics := { responseTime := totalResponseTime, validationScore := 1 } }]
    totalResponseTime := totalResponseTime
    uuidIdx := 3
    nowIdx := 2 }

/-- The user/assistant transcript entry pair one follow-up turn appends
(qaAgent.ts 169–189): both entries share the run's `chatId` and the turn's
`turnResponseTime`, with the placeholder validation score 1. -/
def followUpMessagePair (env : QaEnv) (chatId followUpMessage chatResponse : String)
    (turnResponseTime : Int) (uuidIdx : Nat) : List TestMessage :=
  [{ id := env.uuid uuidIdx, chatId := chatId, role := "user", content := followUpMessage
     metrics := { responseTime := turnResponseTime, validationScore := 1 } },
   { id := env.uuid (uuidIdx + 1), chatId := chatId, role := "assistant"
     content := chatResponse
     metrics := { responseTime := turnResponseTime, validationScore := 1 } }]

/-- The `for (const plannedTurn of conversationPlan)` loop of qaAgent.ts
136–191. Each iteration re-invokes the model, calls the target API — a
rejection named `AbortError` is replaced by
`new Error('API request timed out after 10 seconds')`, any other rejection
is rethrown unchanged (lines 154–159) — and appends a user/assistant entry
pair carrying the turn's `turnResponseTime` (lines 161–189). -/
def runFollowUps (env : QaEnv) (cfg : QaAgentConfig) (chatId : String) :
    List String → TurnState → Except JSError TurnState
  | [], st => .ok st
  | plannedTurn :: rest, st =>
    match env.invoke (followUpPrompt st.chatResponse plannedTurn) with
    | .error e => .error e
    | .ok followUpResult =>
      let followUpMessage := env.extractTestMessage followUpResult
      let startTime := env.now st.nowIdx
      let followUpInput := env.formatInput followUpMessage cfg.apiConfig.inputFormat
      match env.callEndpoint cfg.endpointUrl cfg.headers followUpInput with
      | .error e =>
        if e.name == "AbortError" then
          .error { name := "Error", message := "API request timed out after 10 seconds" }
        else
          .error e
      | .ok apiResponse =>
        let chatResponse := env.extractChatResponse apiResponse cfg.apiConfig.rules
        let turnResponseTime := env.now (st.nowIdx + 1) - startTime
        let totalResponseTime := st.totalResponseTime + (env.now (st.nowIdx + 2) - startTime)
        runFollowUps env cfg chatId rest
          { chatResponse := chatResponse
            apiResponse := apiResponse
            allMessages := st.allMessages ++
              followUpMessagePair env chatId followUpMessage chatResponse turnResponseTime
                st.uuidIdx
            totalResponseTime := totalResponseTime
            uuidIdx := st.uuidIdx + 2
            nowIdx := st.nowIdx + 3 }

/-- The initial-turn state followed by the guarded follow-up loop of
qaAgent.ts 104–191: the loop body runs only when the extracted conversation
plan has at least one turn (`if (conversationPlan && conversationPlan.length
> 0)`). -/
def planLoop (env : QaEnv) (cfg : QaAgentConfig) (planResult apiResponse : String) :
    Except JSError TurnState :=
  let st0 := initialTurnState env cfg (env.extractTestMessage planResult) apiResponse
  match env.extractConversationPlan planResult with
  | some plan =>
    if 0 < plan.length then runFollowUps env cfg (env.uuid 0) plan st0 else .ok st0
  | none => .ok st0

/-- `QaAgent.runTest` (qaAgent.ts 72–242). The outer catch (238–241) only
logs and rethrows, so a rejection anywhere surfaces unchanged and no
`TestResult` is produced. On success it also performs the
`memory.saveContext({input: testMessage}, {output: chatResponse})` of lines
214–217 — note `testMessage` is the initial message while `chatResponse` is
the last turn's response. -/
def runTest (env : QaEnv) (cfg : QaAgentConfig) (st : AgentState)
    (scenario expectedOutput : String) : Except JSError (TestResult × AgentState) :=
  match env.invoke (planPrompt scenario expectedOutput) with
  | .error e => .error e
  | .ok planResult =>
    let testMessage := env.extractTestMessage planResult
    let formattedInput := env.formatInput testMessage cfg.apiConfig.inputFormat
    match env.callEndpoint cfg.endpointUrl cfg.headers formattedInput with
    | .error e => .error e
    | .ok apiResponse =>
      match planLoop env cfg planResult apiResponse with
      | .error e => .error e
      | .ok stN =>
        let formatValid := env.validateResponseFormat stN.apiResponse cfg.apiConfig.outputFormat
        let conditionMet := env.validateCondition stN.apiResponse cfg.apiConfig.rules
        match env.invoke (analysisPrompt scenario expectedOutput stN.allMessages
            formatValid conditionMet) with
        | .error e => .error e
        | .ok analysisResult =>
          .ok ({ conversation :=
                   { humanMessage := testMessage
                     rawInput := formattedInput
                     rawOutput := stN.apiResponse
                     chatResponse := stN.chatResponse
                     allMessages := stN.allMessages }
                 validation :=
                   { passedTest := formatValid && conditionMet
                     formatValid := formatValid
                     conditionMet := conditionMet
                     explanation := analysisResult
                     metrics := { responseTime := stN.totalResponseTime } } },
               { memory := st.memory ++
                   [ChatMessage.human testMessage, ChatMessage.ai stN.chatResponse] })

/-- `QaAgent.getHistory` (qaAgent.ts 244–247): the accumulated memory as
role-tagged messages. -/
def getHistory (st : AgentState) : List ChatMessage :=
  st.memory

/-- The number of follow-up turns the planning step yields: the length of the
extracted conversation plan, 0 when no plan section is present; `none` when
the planning invocation itself rejects. -/
def plannedTurns (env : QaEnv) (scenario expectedOutput : String) : Option Nat :=
  match env.invoke (planPrompt scenario expectedOutput) with
  | .error _ => none
  | .ok planResult =>
    match env.extractConversationPlan planResult with
    | some plan => some plan.length
    | none => some 0

/- ## Lemmas about `jsTrim` -/

theorem head?_dropWhile_false (p : Char → Bool) :
    ∀ (l : List Char) (x : Char), (l.dropWhile p).head? = some x → p x = false := by
  intro l
  induction l with
  | nil => intro x h; simp [List.dropWhile] at h
  | cons c t ih =>
    intro x h
    by_cases hc : p c = true
    · rw [List.dropWhile_cons_of_pos hc] at h
      exact ih x h
    · rw [List.dropWhile_cons_of_neg hc] at h
      simp only [List.head?_cons, Option.some.injEq] at h
      rw [← h]
      exact Bool.eq_false_iff.mpr hc

theorem dropWhile_eq_self_of_head? (p : Char → Bool) (l : List Char)
    (h : ∀ x, l.head? = some x → p x = false) : l.dropWhile p = l := by
  cases l with
  | nil => rfl
  | cons c t =>
    rw [List.dropWhile_cons_of_neg]
    simp [h c rfl]

theorem getLast?_dropWhile (p : Char → Bool) (l : List Char)
    (h : l.dropWhile p ≠ []) : (l.dropWhile p).getLast? = l.getLast? := by
  obtain ⟨t, ht⟩ := List.dropWhile_suffix (l := l) p
  conv_rhs => rw [← ht]
  exact (List.getLast?_append_of_ne_nil t h).symm

/-- `trim` is idempotent, i.e. the output of `jsTrim` is already trimmed. -/
theorem jsTrim_idem (s : String) : jsTrim (jsTrim s) = jsTrim s := by
  unfold jsTrim
  have hmk : ∀ l : List Char, (String.mk l).toList = l := fun _ => rfl
  rw [hmk]
  set p := Char.isWhitespace with hp
  set a := s.toList.dropWhile p with ha
  set b := a.reverse.dropWhile p with hb
  have h1 : b.reverse.dropWhile p = b.reverse := by
    apply dropWhile_eq_self_of_head?
    intro x hx
    rw [List.head?_reverse] at hx
    have hbne : b ≠ [] := by
      intro hnil
      rw [hnil] at hx
      simp at hx
    rw [hb, getLast?_dropWhile p a.reverse (hb ▸ hbne), List.getLast?_reverse] at hx
    rw [ha] at hx
    exact head?_dropWhile_false p s.toList x hx
  have h2 : b.dropWhile p = b := by
    apply dropWhile_eq_self_of_head?
    intro x hx
    rw [hb] at hx
    exact head?_dropWhile_false p a.reverse x hx
  rw [h1, List.reverse_reverse, h2]

/- ## Lemmas about the evaluation filter -/

theorem isValidEvaluation_spec (j : Json) (h : isValidEvaluation j = true) :
    0 < (jsTrim (getStringField j "scenario")).length ∧
    0 < (jsTrim (getStringField j "expectedOutput")).length := by
  unfold isValidEvaluation at h
  unfold getStringField
  split at h
  · rename_i s e hs he
    rw [hs, he]
    simpa using h
  · exact absurd h (by simp)

/-- Claim C7: every entry surviving the evaluation filter has non-empty
trimmed `scenario` and `expectedOutput`, both fields are trimmed in the
output, and the reported stats satisfy `valid + filtered = total` with
`total` the candidate count. -/
theorem evaluationFilter_valid_and_stats (candidates : List Json) :
    (∀ ev ∈ validEvaluationsOf candidates,
        0 < (jsTrim ev.scenario).length ∧ 0 < (jsTrim ev.expectedOutput).length ∧
        jsTrim ev.scenario = ev.scenario ∧ jsTrim ev.expectedOutput = ev.expectedOutput) ∧
    (statsOf candidates).valid + (statsOf candidates).filtered = (statsOf candidates).total := by
  constructor
  · intro ev hev
    unfold validEvaluationsOf at hev
    obtain ⟨j, hj, hev⟩ := List.mem_map.mp hev
    have hvalid := (List.mem_filter.mp hj).2
    obtain ⟨h1, h2⟩ := isValidEvaluation_spec j hvalid
    rw [← hev]
    exact ⟨by simpa [jsTrim_idem] using h1, by simpa [jsTrim_idem] using h2,
           jsTrim_idem _, jsTrim_idem _⟩
  · have hle : (validEvaluationsOf candidates).length ≤ candidates.length := by
      unfold validEvaluationsOf
      rw [List.length_map]
      exact List.length_filter_le _ _
    unfold statsOf
    dsimp only
    omega

/-- A candidate list exercising both filter outcomes: one valid entry with
untrimmed fields, one invalid (empty object) entry. -/
def c7Candidates : List Json :=
  [Json.obj [("scenario", Json.str " a "), ("expectedOutput", Json.str "b")], Json.obj []]

theorem evaluationFilter_valid_and_stats_witness :
    (0 < (jsTrim (Evaluation.mk "a" "b").scenario).length ∧
     0 < (jsTrim (Evaluation.mk "a" "b").expectedOutput).length ∧
     jsTrim (Evaluation.mk "a" "b").scenario = (Evaluation.mk "a" "b").scenario ∧
     jsTrim (Evaluation.mk "a" "b").expectedOutput = (Evaluation.mk "a" "b").expectedOutput) ∧
    (statsOf c7Candidates).valid + (statsOf c7Candidates).filtered = (statsOf c7Candidates).total :=
  ⟨(evaluationFilter_valid_and_stats c7Candidates).1 (Evaluation.mk "a" "b")
      (by rw [show validEvaluationsOf c7Candidates = [Evaluation.mk "a" "b"] from rfl]
          exact List.mem_singleton.mpr rfl),
   (evaluationFilter_valid_and_stats c7Candidates).2⟩

/- ## extractJSON claims -/

/-- The text contains neither `[` nor a left brace. -/
def noJsonStructure (text : String) : Bool :=
  text.toList.all fun c => !(c == '[') && !(c == lbrace)

theorem sliceStructure_eq_none (text : String) (h : noJsonStructure text = true) :
    sliceStructure text = none := by
  unfold noJsonStructure at h
  rw [List.all_eq_true] at h
  unfold sliceStructure
  have h1 : text.toList.findIdx? (· == '[') = none := by
    rw [List.findIdx?_eq_none_iff]
    intro x hx
    have hb := (Bool.and_eq_true _ _).mp (h x hx)
    simpa using hb.1
  have h2 : text.toList.findIdx? (· == lbrace) = none := by
    rw [List.findIdx?_eq_none_iff]
    intro x hx
    have hb := (Bool.and_eq_true _ _).mp (h x hx)
    simpa using hb.2
  rw [h1, h2]

/-- Claim C4: `extractJSON` is total by construction, and every failure path —
no `[` or brace anywhere in the input, or a repair/parse failure on the sliced
text — returns the empty envelope `{ evaluations: [] }` instead of throwing. -/
theorem extractJSON_failure_paths (repairParse : String → Option Json) (text : String) :
    (noJsonStructure text = true → extractJSON repairParse text = emptyEvaluations) ∧
    (∀ t, sliceStructure text = some t → repairParse t = none →
      extractJSON repairParse text = emptyEvaluations) := by
  constructor
  · intro h
    unfold extractJSON
    rw [sliceStructure_eq_none text h]
  · intro t hslice hparse
    unfold extractJSON
    simp only [hslice, hparse]

theorem extractJSON_failure_paths_witness :
    (noJsonStructure "hello world" = true ∧
      extractJSON jsonParse "hello world" = emptyEvaluations) ∧
    (sliceStructure "x\x7boops" = some "\x7boops" ∧ jsonParse "\x7boops" = none ∧
      extractJSON jsonParse "x\x7boops" = emptyEvaluations) :=
  ⟨⟨by decide, (extractJSON_failure_paths jsonParse "hello world").1 (by decide)⟩,
   ⟨rfl, rfl, (extractJSON_failure_paths jsonParse "x\x7boops").2 "\x7boops" rfl rfl⟩⟩

/-- Input whose JSON payload is a plain (non-envelope) object. -/
def c2Input : String := "x\x7b\"a\":1\x7d"

/-- Claim C2 counterexample: on `x{"a":1}` (a non-array object after the
slice), `extractJSON` returns the parsed object as-is — it has no
`evaluations` field at all, so the result does not conform to the normalized
envelope shape. -/
theorem extractJSON_envelope_counterexample :
    extractJSON jsonParse c2Input = Json.obj [("a", Json.num 1)] ∧
    hasEvaluationsArray (extractJSON jsonParse c2Input) = false :=
  ⟨rfl, by decide⟩

/-- Claim C2 (amended): `extractJSON` wraps a parsed array under the
`evaluations` key, but a non-array parsed value is returned as-is and need
not conform to the envelope; the envelope shape is only guaranteed after the
POST handler's normalization step (route.ts 148–150). -/
theorem extractJSON_envelope_after_normalization (repairParse : String → Option Json)
    (text : String) :
    (∀ t xs, sliceStructure text = some t → repairParse t = some (Json.arr xs) →
      extractJSON repairParse text = Json.obj [("evaluations", Json.arr xs)]) ∧
    hasEvaluationsArray (normalizeEvaluations (extractJSON repairParse text)) = true := by
  constructor
  · intro t xs hslice hparse
    unfold extractJSON
    simp only [hslice, hparse]
  · unfold normalizeEvaluations
    by_cases h : hasEvaluationsArray (extractJSON repairParse text) = true
    · rw [if_pos h]
      exact h
    · rw [if_neg h]
      decide

theorem extractJSON_envelope_after_normalization_witness :
    (sliceStructure "[1]" = some "[1]" ∧ jsonParse "[1]" = some (Json.arr [Json.num 1]) ∧
      extractJSON jsonParse "[1]" = Json.obj [("evaluations", Json.arr [Json.num 1])]) ∧
    hasEvaluationsArray (normalizeEvaluations (extractJSON jsonParse c2Input)) = true :=
  ⟨⟨rfl, rfl,
    (extractJSON_envelope_after_normalization jsonParse "[1]").1 "[1]" [Json.num 1] rfl rfl⟩,
   (extractJSON_envelope_after_normalization jsonParse c2Input).2⟩

/- ## generate-tests handler claims -/

theorem getField_generateTestsBody (uuid : Nat → String) (valids : List Evaluation)
    (total : Nat) :
    (generateTestsBody uuid valids total).getField "testCases" =
      some (Json.arr (valids.mapIdx fun i ev =>
        Json.obj [("id", Json.str (uuid i)), ("scenario", Json.str ev.scenario),
                  ("expectedOutput", Json.str ev.expectedOutput)])) := rfl

/-- Claim C6: when zero evaluations survive the filter, the generate-tests
handler throws `No valid evaluations generated`, which the catch turns into a
500 response carrying that message; and no response of the handler ever holds
an empty `testCases` array. -/
theorem generateTests_no_valid_evaluations (repairParse : String → Option Json)
    (uuid : Nat → String) (responseE : Except JSError String) (response : String) :
    (validEvaluationsOf (evaluationsOf (normalizeEvaluations
        (extractJSON repairParse response))) = [] →
      generateTestsPOST repairParse uuid (.ok response) =
        { status := 500
          body := Json.obj [("error", Json.str "Failed to generate evaluations"),
                            ("details", Json.str "No valid evaluations generated")] }) ∧
    (∀ tcs, (generateTestsPOST repairParse uuid responseE).body.getField "testCases" =
        some (Json.arr tcs) → tcs ≠ []) := by
  constructor
  · intro h
    unfold generateTestsPOST
    simp only [h]
    rfl
  · intro tcs htcs
    unfold generateTestsPOST at htcs
    cases responseE with
    | error e =>
      exact absurd htcs (by simp [Json.getField, List.lookup])
    | ok response2 =>
      dsimp only at htcs
      by_cases hlen :
          (validEvaluationsOf (evaluationsOf (normalizeEvaluations
            (extractJSON repairParse response2)))).length = 0
      · rw [if_pos hlen] at htcs
        exact absurd htcs (by simp [Json.getField, List.lookup])
      · rw [if_neg hlen] at htcs
        dsimp only at htcs
        rw [getField_generateTestsBody] at htcs
        have harr := Json.arr.inj (Option.some.inj htcs)
        intro hnil
        rw [hnil] at harr
        have hcount := congrArg List.length harr
        rw [List.length_mapIdx] at hcount
        exact hlen (by simpa using hcount)

/-- A model response whose payload is one valid evaluation. -/
def c6OkInput : String := "[\x7b\"scenario\":\"a\",\"expectedOutput\":\"b\"\x7d]"

theorem generateTests_no_valid_evaluations_witness :
    (validEvaluationsOf (evaluationsOf (normalizeEvaluations
        (extractJSON jsonParse "plain text"))) = [] ∧
      generateTestsPOST jsonParse (fun _ => "id") (.ok "plain text") =
        { status := 500
          body := Json.obj [("error", Json.str "Failed to generate evaluations"),
                            ("details", Json.str "No valid evaluations generated")] }) ∧
    ([Json.obj [("id", Json.str "id"), ("scenario", Json.str "a"),
        ("expectedOutput", Json.str "b")]] : List Json) ≠ [] :=
  ⟨⟨rfl, (generateTests_no_valid_evaluations jsonParse (fun _ => "id")
      (.ok "plain text") "plain text").1 rfl⟩,
   (generateTests_no_valid_evaluations jsonParse (fun _ => "id")
      (.ok c6OkInput) c6OkInput).2
     [Json.obj [("id", Json.str "id"), ("scenario", Json.str "a"),
        ("expectedOutput", Json.str "b")]] rfl⟩

/- ## analyze-results handler claims -/

/-- A pass-through request validator (a concrete instance of
`validateAnalyzeResultsRequest` succeeding). -/
def c9Validate : Json → Except JSError Json := fun b => .ok b

/-- A concrete analysis chain that echoes its input. -/
def c9Invoke : LLMConfig → Json → Except JSError Json := fun _ r => .ok r

/-- Claim C9 counterexample: a request whose body fails `req.json()` and whose
headers yield no LLM configuration is answered by the generic catch with a
500, not with the 400 client error the claim promises for every
missing-configuration request. -/
theorem analyzeResults_clientError_counterexample :
    analyzeResultsPOST none c9Validate none c9Invoke =
      { status := 500, body := Json.obj [("error", Json.str "Failed to analyze results")] } ∧
    (analyzeResultsPOST none c9Validate none c9Invoke).status ≠ 400 :=
  ⟨rfl, by decide⟩

/-- Claim C9 (amended): when the request body parses and validates, a missing
or invalid header-derived LLM configuration yields HTTP 400 with an error
message; the response is the same for every model chain, so no model
invocation can have occurred. (When the body itself fails, the generic catch
answers 500 instead.) -/
theorem analyzeResults_missing_config_400 (bodyJ : Json)
    (validate : Json → Except JSError Json)
    (invokeAnalysis : LLMConfig → Json → Except JSError Json) (results : Json)
    (hval : validate bodyJ = .ok results) :
    analyzeResultsPOST (some bodyJ) validate none invokeAnalysis =
      { status := 400
        body := Json.obj [("error", Json.str "Missing or invalid LLM configuration")] } := by
  unfold analyzeResultsPOST
  simp only [hval]

theorem analyzeResults_missing_config_400_witness :
    c9Validate (Json.obj []) = .ok (Json.obj []) ∧
    analyzeResultsPOST (some (Json.obj [])) c9Validate none c9Invoke =
      { status := 400
        body := Json.obj [("error", Json.str "Missing or invalid LLM configuration")] } :=
  ⟨rfl, analyzeResults_missing_config_400 (Json.obj []) c9Validate c9Invoke (Json.obj []) rfl⟩

/- ## Transcript-shape lemmas -/

/-- The list is a sequence of user/assistant entry pairs all tagged `cid`. -/
def chunksUA (cid : String) : List TestMessage → Bool
  | [] => true
  | u :: a :: rest =>
    u.role == "user" && a.role == "assistant" && u.chatId == cid && a.chatId == cid &&
      chunksUA cid rest
  | _ :: [] => false

/-- Roles alternate `user`, `assistant`, `user`, `assistant`, … over pairs. -/
def alternatesUA : List TestMessage → Bool
  | [] => true
  | u :: a :: rest => u.role == "user" && a.role == "assistant" && alternatesUA rest
  | _ :: [] => false

theorem chunksUA_append (cid : String) (l2 : List TestMessage)
    (h2 : chunksUA cid l2 = true) :
    ∀ l1, chunksUA cid l1 = true → chunksUA cid (l1 ++ l2) = true
  | [], _ => by simpa using h2
  | x :: y :: rest, h => by
    simp only [List.cons_append]
    simp only [chunksUA, Bool.and_eq_true] at h ⊢
    obtain ⟨⟨⟨⟨ha, hb⟩, hc⟩, hd⟩, he⟩ := h
    exact ⟨⟨⟨⟨ha, hb⟩, hc⟩, hd⟩, chunksUA_append cid l2 h2 rest he⟩
  | _ :: [], h => by simp [chunksUA] at h

theorem chunksUA_alternates (cid : String) :
    ∀ l, chunksUA cid l = true → alternatesUA l = true
  | [], _ => rfl
  | x :: y :: rest, h => by
    simp only [chunksUA, Bool.and_eq_true] at h
    obtain ⟨⟨⟨⟨ha, hb⟩, _⟩, _⟩, he⟩ := h
    simp only [alternatesUA, Bool.and_eq_true]
    exact ⟨⟨ha, hb⟩, chunksUA_alternates cid rest he⟩
  | _ :: [], h => by simp [chunksUA] at h

theorem chunksUA_chatId (cid : String) :
    ∀ l, chunksUA cid l = true → ∀ m ∈ l, m.chatId = cid
  | [], _, m, hm => absurd hm (List.not_mem_nil m)
  | x :: y :: rest, h, m, hm => by
    simp only [chunksUA, Bool.and_eq_true] at h
    obtain ⟨⟨⟨⟨_, _⟩, hc⟩, hd⟩, he⟩ := h
    rcases List.mem_cons.mp hm with rfl | hm2
    · exact beq_iff_eq.mp hc
    rcases List.mem_cons.mp hm2 with rfl | hm3
    · exact beq_iff_eq.mp hd
    · exact chunksUA_chatId cid rest he m hm3
  | x :: [], h, m, hm => by simp [chunksUA] at h

/- ## Loop invariants of `runFollowUps` -/

/-- Invariant of the loop state: `chatResponse` is the extraction of
`apiResponse`, and the last transcript entry is an assistant entry whose
content is `chatResponse`. -/
def StInv (env : QaEnv) (cfg : QaAgentConfig) (st : TurnState) : Prop :=
  st.chatResponse = env.extractChatResponse st.apiResponse cfg.apiConfig.rules ∧
  ∃ m, st.allMessages.getLast? = some m ∧ m.role = "assistant" ∧
    m.content = st.chatResponse

theorem runFollowUps_ok_spec (env : QaEnv) (cfg : QaAgentConfig) (cid : String) :
    ∀ (turns : List String) (st st' : TurnState),
      runFollowUps env cfg cid turns st = .ok st' →
      ∃ ext, st'.allMessages = st.allMessages ++ ext ∧
        ext.length = 2 * turns.length ∧
        chunksUA cid ext = true ∧
        (StInv env cfg st → StInv env cfg st')
  | [], st, st', h => by
    have hst : st = st' := Except.ok.inj h
    subst hst
    refine ⟨[], by simp, by simp, ?_, fun hi => hi⟩
    rfl
  | turn :: rest, st, st', h => by
    unfold runFollowUps at h
    split at h
    · exact absurd h (by simp)
    · rename_i fr hinv
      simp only at h
      split at h
      · split at h <;> exact absurd h (by simp)
      · rename_i ar hcall
        obtain ⟨ext, hext, hlen, hch, hstinv⟩ :=
          runFollowUps_ok_spec env cfg cid rest _ st' h
        simp only at hext
        refine ⟨followUpMessagePair env cid (env.extractTestMessage fr)
            (env.extractChatResponse ar cfg.apiConfig.rules)
            (env.now (st.nowIdx + 1) - env.now st.nowIdx) st.uuidIdx ++ ext,
          ?_, ?_, ?_, ?_⟩
        · rw [hext, List.append_assoc]
        · simp only [List.length_append, hlen, followUpMessagePair, List.length_cons,
            List.length_nil]
          omega
        · exact chunksUA_append cid ext hch _ (by simp [followUpMessagePair, chunksUA])
        · intro _
          apply hstinv
          refine ⟨rfl, ⟨{ id := env.uuid (st.uuidIdx + 1), chatId := cid,
                          role := "assistant",
                          content := env.extractChatResponse ar cfg.apiConfig.rules,
                          metrics := { responseTime :=
                                         env.now (st.nowIdx + 1) - env.now st.nowIdx,
                                       validationScore := 1 } }, ?_, rfl, rfl⟩⟩
          show (st.allMessages ++ followUpMessagePair env cid (env.extractTestMessage fr)
            (env.extractChatResponse ar cfg.apiConfig.rules)
            (env.now (st.nowIdx + 1) - env.now st.nowIdx) st.uuidIdx).getLast? = _
          rw [List.getLast?_append_of_ne_nil _ (by simp [followUpMessagePair])]
          rfl

/-- The number of follow-up turns in the extracted plan (0 when no plan
section was extracted). -/
def planLength (env : QaEnv) (planResult : String) : Nat :=
  match env.extractConversationPlan planResult with
  | some plan => plan.length
  | none => 0

theorem StInv_initial (env : QaEnv) (cfg : QaAgentConfig) (tm ar : String) :
    StInv env cfg (initialTurnState env cfg tm ar) :=
  ⟨rfl, ⟨_, rfl, rfl, rfl⟩⟩

theorem plannedTurns_planLength (env : QaEnv) (scenario expectedOutput pr : String) (n : Nat)
    (hinv : env.invoke (planPrompt scenario expectedOutput) = .ok pr)
    (hplan : plannedTurns env scenario expectedOutput = some n) :
    planLength env pr = n := by
  unfold plannedTurns at hplan
  simp only [hinv] at hplan
  unfold planLength
  cases hcp : env.extractConversationPlan pr <;> rw [hcp] at hplan <;>
    simpa using hplan

theorem planLoop_ok_spec (env : QaEnv) (cfg : QaAgentConfig) (pr ar : String)
    (stN : TurnState) (h : planLoop env cfg pr ar = .ok stN) :
    ∃ ext, stN.allMessages =
        (initialTurnState env cfg (env.extractTestMessage pr) ar).allMessages ++ ext ∧
      ext.length = 2 * planLength env pr ∧
      chunksUA (env.uuid 0) ext = true ∧
      StInv env cfg stN := by
  unfold planLoop at h
  unfold planLength
  cases hcp : env.extractConversationPlan pr with
  | none =>
    rw [hcp] at h
    have hstN := Except.ok.inj h
    subst hstN
    exact ⟨[], by simp, by simp, rfl, StInv_initial env cfg _ ar⟩
  | some plan =>
    simp only [hcp] at h
    by_cases hlen : 0 < plan.length
    · rw [if_pos hlen] at h
      obtain ⟨ext, hext, hlenext, hch, hstinv⟩ :=
        runFollowUps_ok_spec env cfg (env.uuid 0) plan _ stN h
      exact ⟨ext, hext, by simpa using hlenext, hch,
        hstinv (StInv_initial env cfg _ ar)⟩
    · rw [if_neg hlen] at h
      have hstN := Except.ok.inj h
      subst hstN
      have h0 : plan.length = 0 := Nat.eq_zero_of_not_pos hlen
      exact ⟨[], by simp, by simp [h0], rfl, StInv_initial env cfg _ ar⟩

/-- Elimination principle for a successful `runTest`: names every intermediate
value of the success path and equates the returned `TestResult` and agent
state with their construction from those values (qaAgent.ts 199–236). -/
theorem runTest_ok_spec (env : QaEnv) (cfg : QaAgentConfig) (st : AgentState)
    (scenario expectedOutput : String) (res : TestResult) (st' : AgentState)
    (h : runTest env cfg st scenario expectedOutput = .ok (res, st')) :
    ∃ pr ar stN an,
      env.invoke (planPrompt scenario expectedOutput) = .ok pr ∧
      env.callEndpoint cfg.endpointUrl cfg.headers
        (env.formatInput (env.extractTestMessage pr) cfg.apiConfig.inputFormat) = .ok ar ∧
      planLoop env cfg pr ar = .ok stN ∧
      env.invoke (analysisPrompt scenario expectedOutput stN.allMessages
        (env.validateResponseFormat stN.apiResponse cfg.apiConfig.outputFormat)
        (env.validateCondition stN.apiResponse cfg.apiConfig.rules)) = .ok an ∧
      res = { conversation :=
                { humanMessage := env.extractTestMessage pr
                  rawInput := env.formatInput (env.extractTestMessage pr)
                    cfg.apiConfig.inputFormat
                  rawOutput := stN.apiResponse
                  chatResponse := stN.chatResponse
                  allMessages := stN.allMessages }
              validation :=
                { passedTest :=
                    env.validateResponseFormat stN.apiResponse cfg.apiConfig.outputFormat &&
                      env.validateCondition stN.apiResponse cfg.apiConfig.rules
                  formatValid :=
                    env.validateResponseFormat stN.apiResponse cfg.apiConfig.outputFormat
                  conditionMet := env.validateCondition stN.apiResponse cfg.apiConfig.rules
                  explanation := an
                  metrics := { responseTime := stN.totalResponseTime } } } ∧
      st' = { memory := st.memory ++ [ChatMessage.human (env.extractTestMessage pr),
                ChatMessage.ai stN.chatResponse] } := by
  unfold runTest at h
  split at h
  · exact absurd h (by simp)
  · rename_i pr hpr
    simp only at h
    split at h
    · exact absurd h (by simp)
    · rename_i ar har
      split at h
      · exact absurd h (by simp)
      · rename_i stN hloop
        split at h
        · exact absurd h (by simp)
        · rename_i an han
          injection h with hpair
          injection hpair with h1 h2
          exact ⟨pr, ar, stN, an, hpr, har, hloop, han, h1.symm, h2.symm⟩

/- ## QaAgent claims -/

/-- Claim C8: for every `TestResult` returned by `runTest`,
`validation.passedTest` equals `validation.formatValid && validation.conditionMet`. -/
theorem runTest_passedTest_conjunction (env : QaEnv) (cfg : QaAgentConfig)
    (st : AgentState) (scenario expectedOutput : String) (res : TestResult)
    (st' : AgentState)
    (hrun : runTest env cfg st scenario expectedOutput = .ok (res, st')) :
    res.validation.passedTest = (res.validation.formatValid && res.validation.conditionMet) := by
  obtain ⟨pr, ar, stN, an, _, _, _, _, hres, _⟩ :=
    runTest_ok_spec env cfg st scenario expectedOutput res st' hrun
  subst hres
  rfl

/-- Claim C3: a successful `runTest` whose planning step yields `n` follow-up
turns returns exactly `2*(n+1)` transcript entries, alternating user then
assistant, all sharing one `chatId`. -/
theorem runTest_transcript_shape (env : QaEnv) (cfg : QaAgentConfig) (st : AgentState)
    (scenario expectedOutput : String) (n : Nat) (res : TestResult) (st' : AgentState)
    (hrun : runTest env cfg st scenario expectedOutput = .ok (res, st'))
    (hplan : plannedTurns env scenario expectedOutput = some n) :
    res.conversation.allMessages.length = 2 * (n + 1) ∧
    alternatesUA res.conversation.allMessages = true ∧
    ∃ c, ∀ m ∈ res.conversation.allMessages, m.chatId = c := by
  obtain ⟨pr, ar, stN, an, hinv, hcall, hloop, han, hres, hst⟩ :=
    runTest_ok_spec env cfg st scenario expectedOutput res st' hrun
  obtain ⟨ext, hext, hlenext, hch, _⟩ := planLoop_ok_spec env cfg pr ar stN hloop
  have hn := plannedTurns_planLength env scenario expectedOutput pr n hinv hplan
  subst hres
  dsimp only
  rw [hext]
  have hchunks : chunksUA (env.uuid 0)
      ((initialTurnState env cfg (env.extractTestMessage pr) ar).allMessages ++ ext) = true := by
    refine chunksUA_append (env.uuid 0) ext hch _ ?_
    simp [initialTurnState, chunksUA]
  refine ⟨?_, chunksUA_alternates _ _ hchunks, ⟨env.uuid 0, chunksUA_chatId _ _ hchunks⟩⟩
  rw [List.length_append, hlenext, hn]
  simp [initialTurnState]
  omega

/-- Claim C10: in the `ConversationRecord` of a successful `runTest` with at
least one follow-up turn, `humanMessage`/`rawInput` come from the initial
turn (first transcript entry and its formatted body) while
`rawOutput`/`chatResponse` come from the final turn (last transcript entry
and its extraction). -/
theorem runTest_record_mixes_first_and_last (env : QaEnv) (cfg : QaAgentConfig)
    (st : AgentState) (scenario expectedOutput : String) (n : Nat) (res : TestResult)
    (st' : AgentState)
    (hrun : runTest env cfg st scenario expectedOutput = .ok (res, st'))
    (_hplan : plannedTurns env scenario expectedOutput = some n) (_hn1 : 1 ≤ n) :
    res.conversation.allMessages.head?.map TestMessage.content =
      some res.conversation.humanMessage ∧
    res.conversation.rawInput =
      env.formatInput res.conversation.humanMessage cfg.apiConfig.inputFormat ∧
    res.conversation.allMessages.getLast?.map TestMessage.content =
      some res.conversation.chatResponse ∧
    res.conversation.chatResponse =
      env.extractChatResponse res.conversation.rawOutput cfg.apiConfig.rules := by
  obtain ⟨pr, ar, stN, an, hinv, hcall, hloop, han, hres, hst⟩ :=
    runTest_ok_spec env cfg st scenario expectedOutput res st' hrun
  obtain ⟨ext, hext, _, _, hstinv⟩ := planLoop_ok_spec env cfg pr ar stN hloop
  obtain ⟨hcr, m, hlast, hrole, hcontent⟩ := hstinv
  subst hres
  refine ⟨?_, rfl, ?_, hcr⟩
  · dsimp only
    rw [hext]
    rfl
  · dsimp only
    rw [hlast, Option.map_some', hcontent]

/-- Claim C1 (amended): a successful `runTest` appends to the agent's memory
the initial human test message as input and the final turn's chat response as
output (equal to the initial response only when there are no follow-up
turns); `getHistory` returns them as role-tagged messages. -/
theorem runTest_memory_after_success (env : QaEnv) (cfg : QaAgentConfig)
    (st : AgentState) (scenario expectedOutput : String) (res : TestResult)
    (st' : AgentState)
    (hrun : runTest env cfg st scenario expectedOutput = .ok (res, st')) :
    getHistory st' = getHistory st ++
      [ChatMessage.human res.conversation.humanMessage,
       ChatMessage.ai res.conversation.chatResponse] ∧
    res.conversation.allMessages.head?.map TestMessage.content =
      some res.conversation.humanMessage ∧
    res.conversation.allMessages.getLast?.map TestMessage.content =
      some res.conversation.chatResponse := by
  obtain ⟨pr, ar, stN, an, hinv, hcall, hloop, han, hres, hst⟩ :=
    runTest_ok_spec env cfg st scenario expectedOutput res st' hrun
  obtain ⟨ext, hext, _, _, hstinv⟩ := planLoop_ok_spec env cfg pr ar stN hloop
  obtain ⟨hcr, m, hlast, hrole, hcontent⟩ := hstinv
  subst hres hst
  refine ⟨rfl, ?_, ?_⟩
  · dsimp only
    rw [hext]
    rfl
  · dsimp only
    rw [hlast, Option.map_some', hcontent]

/-- Claim C5: a follow-up-turn rejection of the target-API call named
`AbortError` becomes `new Error('API request timed out after 10 seconds')`,
any other rejection is rethrown as the very same error value; and a failing
follow-up loop makes the whole `runTest` reject with that error — no partial
`TestResult` is produced. -/
theorem followUpTimeout_and_propagation :
    (∀ (env : QaEnv) (cfg : QaAgentConfig) (cid plannedTurn : String)
        (rest : List String) (st : TurnState) (fr : String) (er : JSError),
        env.invoke (followUpPrompt st.chatResponse plannedTurn) = .ok fr →
        env.callEndpoint cfg.endpointUrl cfg.headers
            (env.formatInput (env.extractTestMessage fr) cfg.apiConfig.inputFormat) =
          .error er →
        runFollowUps env cfg cid (plannedTurn :: rest) st =
          .error (if er.name == "AbortError" then
                    { name := "Error", message := "API request timed out after 10 seconds" }
                  else er)) ∧
    (∀ (env : QaEnv) (cfg : QaAgentConfig) (st : AgentState)
        (scenario expectedOutput pr ar : String) (e2 : JSError),
        env.invoke (planPrompt scenario expectedOutput) = .ok pr →
        env.callEndpoint cfg.endpointUrl cfg.headers
            (env.formatInput (env.extractTestMessage pr) cfg.apiConfig.inputFormat) =
          .ok ar →
        planLoop env cfg pr ar = .error e2 →
        runTest env cfg st scenario expectedOutput = .error e2) := by
  constructor
  · intro env cfg cid plannedTurn rest st fr er h1 h2
    unfold runFollowUps
    simp only [h1, h2]
    by_cases hn : er.name == "AbortError" <;> simp [hn]
  · intro env cfg st scenario expectedOutput pr ar e2 h1 h2 h3
    unfold runTest
    simp only [h1, h2, h3]

/- ## Concrete collaborator instances for witnesses and counterexamples -/

/-- A concrete collaborator instance: the model returns the canned message
`m2` for follow-up prompts (which start with `P`) and `m1` otherwise, the
target API echoes its input prefixed with `R`, and the extraction functions
are identities. The planning step always yields a one-turn plan. -/
def cEnv : QaEnv :=
  { invoke := fun s => .ok (if s.front == 'P' then "m2" else "m1")
    formatInput := fun m _ => m
    callEndpoint := fun _ _ b => .ok ("R" ++ b)
    extractTestMessage := fun r => r
    extractConversationPlan := fun _ => some ["t"]
    extractChatResponse := fun r _ => r
    validateResponseFormat := fun _ _ => true
    validateCondition := fun _ _ => true
    uuid := fun n => Nat.repr n
    now := fun _ => 0 }

def cCfg : QaAgentConfig :=
  { modelId := "model"
    apiConfig := { inputFormat := "in", outputFormat := "out", rules := "rules" }
    endpointUrl := "url"
    headers := "hdr" }

/-- One concrete successful run with one follow-up turn, from a fresh agent. -/
def cRun : Except JSError (TestResult × AgentState) :=
  runTest cEnv cCfg { memory := [] } "s" "e"

/-- Claim C1 counterexample: in this successful one-follow-up-turn run the
first chat response (second transcript entry) is `Rm1`, but the memory saved
by `saveContext` holds `Rm2`, the last turn's response — so a later
`getHistory()` does not return the initial exchange. -/
theorem runTest_memory_counterexample :
    (cRun.toOption.map fun p => getHistory p.2) =
      some [ChatMessage.human "m1", ChatMessage.ai "Rm2"] ∧
    (cRun.toOption.map fun p => p.1.conversation.allMessages.map TestMessage.content) =
      some ["m1", "Rm1", "m2", "Rm2"] ∧
    ("Rm2" : String) ≠ "Rm1" :=
  ⟨rfl, rfl, by decide⟩

theorem runTest_memory_after_success_witness :
    (cRun.toOption.map fun p => getHistory p.2) =
      (cRun.toOption.map fun p =>
        getHistory { memory := [] } ++
          [ChatMessage.human p.1.conversation.humanMessage,
           ChatMessage.ai p.1.conversation.chatResponse]) := by
  obtain ⟨⟨res, st'⟩, hp⟩ : ∃ p, cRun = Except.ok p := ⟨_, rfl⟩
  have h := runTest_memory_after_success cEnv cCfg { memory := [] } "s" "e" res st' hp
  rw [hp]
  simp only [Except.toOption, Option.map_some']
  rw [h.1]

theorem runTest_transcript_shape_witness :
    plannedTurns cEnv "s" "e" = some 1 ∧
    (cRun.toOption.map fun p => p.1.conversation.allMessages.length) = some 4 ∧
    (cRun.toOption.map fun p => alternatesUA p.1.conversation.allMessages) = some true := by
  obtain ⟨⟨res, st'⟩, hp⟩ : ∃ p, cRun = Except.ok p := ⟨_, rfl⟩
  have h := runTest_transcript_shape cEnv cCfg { memory := [] } "s" "e" 1 res st' hp rfl
  refine ⟨rfl, ?_, ?_⟩
  · rw [hp]
    simp only [Except.toOption, Option.map]
    rw [h.1]
  · rw [hp]
    simp only [Except.toOption, Option.map]
    rw [h.2.1]

theorem runTest_passedTest_conjunction_witness :
    (cRun.toOption.map fun p => p.1.validation.passedTest) =
      (cRun.toOption.map fun p =>
        p.1.validation.formatValid && p.1.validation.conditionMet) := by
  obtain ⟨⟨res, st'⟩, hp⟩ : ∃ p, cRun = Except.ok p := ⟨_, rfl⟩
  have h := runTest_passedTest_conjunction cEnv cCfg { memory := [] } "s" "e" res st' hp
  rw [hp]
  simp only [Except.toOption, Option.map]
  rw [h]

theorem runTest_record_mixes_witness :
    plannedTurns cEnv "s" "e" = some 1 ∧
    (cRun.toOption.map fun p => p.1.conversation.allMessages.head?.map TestMessage.content) =
      (cRun.toOption.map fun p => some p.1.conversation.humanMessage) ∧
    (cRun.toOption.map fun p => p.1.conversation.rawInput) =
      (cRun.toOption.map fun p =>
        cEnv.formatInput p.1.conversation.humanMessage cCfg.apiConfig.inputFormat) ∧
    (cRun.toOption.map fun p => p.1.conversation.allMessages.getLast?.map TestMessage.content) =
      (cRun.toOption.map fun p => some p.1.conversation.chatResponse) ∧
    (cRun.toOption.map fun p => p.1.conversation.chatResponse) =
      (cRun.toOption.map fun p =>
        cEnv.extractChatResponse p.1.conversation.rawOutput cCfg.apiConfig.rules) := by
  obtain ⟨⟨res, st'⟩, hp⟩ : ∃ p, cRun = Except.ok p := ⟨_, rfl⟩
  have h := runTest_record_mixes_first_and_last cEnv cCfg { memory := [] } "s" "e" 1
    res st' hp rfl (le_refl 1)
  rw [hp]
  simp only [Except.toOption, Option.map_some']
  exact ⟨rfl, by rw [h.1], by rw [h.2.1], by rw [h.2.2.1], by rw [h.2.2.2]⟩

/-- Like `cEnv`, but the target API rejects every follow-up call with an
`AbortError` (the fetch abort fired by the 10-second timeout). -/
def cEnvAbort : QaEnv :=
  { cEnv with callEndpoint := fun _ _ b =>
      if b == "m1" then .ok ("R" ++ b)
      else .error { name := "AbortError", message := "This operation was aborted" } }

/-- Like `cEnv`, but the target API rejects every follow-up call with a
non-timeout transport error. -/
def cEnvFail : QaEnv :=
  { cEnv with callEndpoint := fun _ _ b =>
      if b == "m1" then .ok ("R" ++ b)
      else .error { name := "TypeError", message := "fetch failed" } }

theorem followUpTimeout_and_propagation_witness :
    runFollowUps cEnvAbort cCfg "0" ["t"] (initialTurnState cEnvAbort cCfg "m1" "Rm1") =
      .error { name := "Error", message := "API request timed out after 10 seconds" } ∧
    runFollowUps cEnvFail cCfg "0" ["t"] (initialTurnState cEnvFail cCfg "m1" "Rm1") =
      .error { name := "TypeError", message := "fetch failed" } ∧
    runTest cEnvAbort cCfg { memory := [] } "s" "e" =
      .error { name := "Error", message := "API request timed out after 10 seconds" } := by
  refine ⟨?_, ?_, ?_⟩
  · have h := followUpTimeout_and_propagation.1 cEnvAbort cCfg "0" "t" []
      (initialTurnState cEnvAbort cCfg "m1" "Rm1") "m2"
      { name := "AbortError", message := "This operation was aborted" } rfl rfl
    simpa using h
  · have h := followUpTimeout_and_propagation.1 cEnvFail cCfg "0" "t" []
      (initialTurnState cEnvFail cCfg "m1" "Rm1") "m2"
      { name := "TypeError", message := "fetch failed" } rfl rfl
    simpa using h
  · exact followUpTimeout_and_propagation.2 cEnvAbort cCfg { memory := [] } "s" "e"
      "m1" "Rm1" { name := "Error", message := "API request timed out after 10 seconds" }
      rfl rfl rfl
